import Mathlib

set_option maxRecDepth 8192

/-!
Shallow embedding of the chatbot backend (src/backend/main.py) and proofs
about its core functions: the prompt composer `build_conversation_prompt`,
the directive parser `extract_json_from_response`, the query executor
`execute_dynamodb_query`, and the conversation orchestrator
(`process_with_history` / `chat`).

Python dicts parsed from JSON are modelled as association lists with unique
keys (`objInsert` keeps the first position and replaces the value, matching
dict insertion semantics).  JSON numbers are kept as their lexemes, which is
enough for every property proved here.  Strings are Lean `String`s; the two
regular-expression searches of `extract_json_from_response` are embedded as
explicit scanning functions with exactly the backtracking behaviour of the
Python patterns.
-/

namespace DmsChat

/-- JSON values as produced by Python's `json.loads`.  A number keeps its
source lexeme (the programs proved about never do arithmetic on numbers
beyond zero/one tests, which are decided on the lexeme). -/
inductive JValue where
  | null
  | bool (b : Bool)
  | num (lexeme : String)
  | str (s : String)
  | arr (elems : List JValue)
  | obj (fields : List (String × JValue))

/-- Python `v == "lit"` for a json-decoded value `v` and a string literal:
true exactly when `v` is that string (no cross-type equalities apply). -/
def jvalEqStr : JValue → String → Bool
  | .str s, t => s = t
  | _, _ => false

/-- A Python dict whose keys are strings, as an association list with
unique keys (in insertion order, like a Python dict). -/
abbrev JObject := List (String × JValue)

/-- First-match association-list lookup (Python `d.get(k)` / `d[k]` for a
dict with unique keys). -/
def lookupA {α : Type} : List (String × α) → String → Option α
  | [], _ => none
  | (k, v) :: t, key => if k = key then some v else lookupA t key

/-- Python `k in d`. -/
def hasKeyA {α : Type} (l : List (String × α)) (k : String) : Bool :=
  (lookupA l k).isSome

/-- Python `d[k] = v`: replace the value in place if the key exists,
otherwise append the new pair at the end (dict insertion order). -/
def objInsert {α : Type} : List (String × α) → String → α → List (String × α)
  | [], k, v => [(k, v)]
  | (k0, v0) :: t, k, v =>
    if k0 = k then (k0, v) :: t else (k0, v0) :: objInsert t k v

/-- The character `\x7b` (left curly brace). -/
def lbrace : Char := Char.ofNat 123

/-- The character `\x7d` (right curly brace). -/
def rbrace : Char := Char.ofNat 125

/-- JSON whitespace, as accepted between tokens by Python's json module. -/
def isJsonWs (c : Char) : Bool :=
  c = ' ' || c = '\t' || c = '\n' || c = '\r'

/-- ASCII whitespace as matched by `\s` in the regular expressions and
stripped by `str.strip()` (the uncommon unicode whitespace characters are
not modelled). -/
def isPyWs (c : Char) : Bool :=
  isJsonWs c || c = Char.ofNat 11 || c = Char.ofNat 12

/-- Skip JSON inter-token whitespace. -/
def skipWsL (cs : List Char) : List Char := cs.dropWhile isJsonWs

/-- Python `s.strip()`. -/
def pstrip (s : String) : String :=
  String.mk (((s.toList.dropWhile isPyWs).reverse.dropWhile isPyWs).reverse)

/-- Value of a hexadecimal digit. -/
def hexVal (c : Char) : Option Nat :=
  if '0' ≤ c ∧ c ≤ '9' then some (c.toNat - 48)
  else if 'a' ≤ c ∧ c ≤ 'f' then some (c.toNat - 87)
  else if 'A' ≤ c ∧ c ≤ 'F' then some (c.toNat - 55)
  else none

/-- Body of a JSON string after the opening quote: ordinary characters,
the escapes accepted by Python's json module, and a strict-mode rejection
of raw control characters.  (Surrogate-pair recombination of consecutive
`\uXXXX` escapes is not modelled; no property here depends on it.) -/
def parseStringBody : Nat → List Char → List Char → Option (String × List Char)
  | 0, _, _ => none
  | _ + 1, [], _ => none
  | fuel + 1, c :: rest, acc =>
    if c = '"' then some (String.mk acc.reverse, rest)
    else if c = '\\' then
      match rest with
      | [] => none
      | e :: rest2 =>
        if e = '"' then parseStringBody fuel rest2 ('"' :: acc)
        else if e = '\\' then parseStringBody fuel rest2 ('\\' :: acc)
        else if e = '/' then parseStringBody fuel rest2 ('/' :: acc)
        else if e = 'b' then parseStringBody fuel rest2 (Char.ofNat 8 :: acc)
        else if e = 'f' then parseStringBody fuel rest2 (Char.ofNat 12 :: acc)
        else if e = 'n' then parseStringBody fuel rest2 ('\n' :: acc)
        else if e = 'r' then parseStringBody fuel rest2 ('\r' :: acc)
        else if e = 't' then parseStringBody fuel rest2 ('\t' :: acc)
        else if e = 'u' then
          match rest2 with
          | h1 :: h2 :: h3 :: h4 :: rest3 =>
            match hexVal h1, hexVal h2, hexVal h3, hexVal h4 with
            | some a, some b, some c2, some d =>
              parseStringBody fuel rest3
                (Char.ofNat (((a * 16 + b) * 16 + c2) * 16 + d) :: acc)
            | _, _, _, _ => none
          | _ => none
        else none
    else if c.toNat < 32 then none
    else parseStringBody fuel rest (c :: acc)

/-- Integer part of a JSON number: `0` or a nonzero digit followed by
digits. -/
def lexIntPart : List Char → Option (List Char × List Char)
  | [] => none
  | c :: rest =>
    if c = '0' then some ([c], rest)
    else if c.isDigit then
      some (c :: rest.takeWhile Char.isDigit, rest.dropWhile Char.isDigit)
    else none

/-- Optional fraction part `.digits`; like the regex `(\.\d+)?` it matches
nothing when the digits are missing. -/
def lexFracPart : List Char → List Char × List Char
  | '.' :: rest =>
    let ds := rest.takeWhile Char.isDigit
    if ds.isEmpty then ([], '.' :: rest)
    else ('.' :: ds, rest.dropWhile Char.isDigit)
  | cs => ([], cs)

/-- Optional exponent part `[eE][+-]?digits`; like `([eE][+-]?\d+)?` it
matches nothing when the digits are missing. -/
def lexExpPart (cs : List Char) : List Char × List Char :=
  match cs with
  | c :: rest =>
    if c = 'e' ∨ c = 'E' then
      match rest with
      | s :: rest2 =>
        if s = '+' ∨ s = '-' then
          let ds := rest2.takeWhile Char.isDigit
          if ds.isEmpty then ([], cs)
          else (c :: s :: ds, rest2.dropWhile Char.isDigit)
        else
          let ds := rest.takeWhile Char.isDigit
          if ds.isEmpty then ([], cs) else (c :: ds, rest.dropWhile Char.isDigit)
      | [] => ([], cs)
    else ([], cs)
  | [] => ([], [])

/-- Lex a JSON number (Python json's NUMBER_RE); returns the lexeme. -/
def lexNumber (cs : List Char) : Option (String × List Char) :=
  let (sign, cs1) : List Char × List Char :=
    match cs with
    | '-' :: r => (['-'], r)
    | r => ([], r)
  match lexIntPart cs1 with
  | none => none
  | some (ip, cs2) =>
    let (fp, cs3) := lexFracPart cs2
    let (ep, cs4) := lexExpPart cs3
    some (String.mk (sign ++ ip ++ fp ++ ep), cs4)

/-- Try to strip a literal from the front of the input. -/
def stripLit (lit : List Char) (cs : List Char) : Option (List Char) :=
  if lit.isPrefixOf cs then some (cs.drop lit.length) else none

mutual

/-- Parse one JSON value (Python json decoder).  `fuel` strictly decreases
on every recursive call; `jloads` supplies enough fuel for any input of
the given length. -/
def parseValue : Nat → List Char → Option (JValue × List Char)
  | 0, _ => none
  | fuel + 1, cs =>
    match stripLit "null".toList cs with
    | some r => some (.null, r)
    | none =>
      match stripLit "true".toList cs with
      | some r => some (.bool true, r)
      | none =>
        match stripLit "false".toList cs with
        | some r => some (.bool false, r)
        | none =>
          match cs with
          | [] => none
          | c :: rest =>
            if c = '"' then
              match parseStringBody (rest.length + 1) rest [] with
              | some (s, r) => some (.str s, r)
              | none => none
            else if c = lbrace then parseObjBody fuel (skipWsL rest)
            else if c = '[' then parseArrBody fuel (skipWsL rest)
            else
              match lexNumber cs with
              | some (lex, r) => some (.num lex, r)
              | none =>
                match stripLit "NaN".toList cs with
                | some r => some (.num "NaN", r)
                | none =>
                  match stripLit "Infinity".toList cs with
                  | some r => some (.num "Infinity", r)
                  | none =>
                    match stripLit "-Infinity".toList cs with
                    | some r => some (.num "-Infinity", r)
                    | none => none

/-- After the opening brace and whitespace: empty object or members. -/
def parseObjBody : Nat → List Char → Option (JValue × List Char)
  | 0, _ => none
  | fuel + 1, cs =>
    match cs with
    | [] => none
    | c :: rest =>
      if c = rbrace then some (.obj [], rest) else parseObjPairs fuel cs []

/-- Members of an object; the cursor is at a key quote. -/
def parseObjPairs : Nat → List Char → JObject → Option (JValue × List Char)
  | 0, _, _ => none
  | fuel + 1, cs, acc =>
    match cs with
    | [] => none
    | c :: rest =>
      if c = '"' then
        match parseStringBody (rest.length + 1) rest [] with
        | some (key, r1) =>
          match skipWsL r1 with
          | ':' :: r2 =>
            match parseValue fuel (skipWsL r2) with
            | some (v, r3) =>
              let acc2 := objInsert acc key v
              match skipWsL r3 with
              | c2 :: r4 =>
                if c2 = rbrace then some (.obj acc2, r4)
                else if c2 = ',' then parseObjPairs fuel (skipWsL r4) acc2
                else none
              | [] => none
            | none => none
          | _ => none
        | none => none
      else none

/-- After the opening bracket and whitespace: empty array or elements. -/
def parseArrBody : Nat → List Char → Option (JValue × List Char)
  | 0, _ => none
  | fuel + 1, cs =>
    match cs with
    | [] => none
    | c :: rest =>
      if c = ']' then some (.arr [], rest) else parseArrElems fuel cs []

/-- Elements of an array; the cursor is at the start of a value. -/
def parseArrElems : Nat → List Char → List JValue → Option (JValue × List Char)
  | 0, _, _ => none
  | fuel + 1, cs, acc =>
    match parseValue fuel cs with
    | some (v, r) =>
      match skipWsL r with
      | c :: r2 =>
        if c = ']' then some (.arr (acc ++ [v]), r2)
        else if c = ',' then parseArrElems fuel (skipWsL r2) (acc ++ [v])
        else none
      | [] => none
    | none => none

end

/-- Python `json.loads`: a single JSON value, optionally surrounded by
whitespace; anything left over is an error ("Extra data"). -/
def jloads (s : String) : Option JValue :=
  match parseValue (6 * s.length + 64) (skipWsL s.toList) with
  | some (v, rest) => if skipWsL rest = [] then some v else none
  | none => none

/-- The fence token of a markdown code block, three backticks. -/
def fenceL : List Char := "```".toList

/-- Skip characters matched by `\s` in the regular expressions. -/
def skipReWs (cs : List Char) : List Char := cs.dropWhile isPyWs

/-- The lazy `\{.*?\}` of the fenced-block pattern followed by
`\s*` + closing fence: scan forward for the first closing brace whose tail
(after whitespace) starts with a fence, collecting the span.  Later closing
braces that do not satisfy the follow-condition are consumed by `.*?`. -/
def scanClose (acc : List Char) : List Char → Option (List Char)
  | [] => none
  | c :: rest =>
    if c = rbrace && fenceL.isPrefixOf (skipReWs rest) then
      some (lbrace :: (acc.reverse ++ [rbrace]))
    else scanClose (c :: acc) rest

/-- After the opening fence (and optional `json` tag): `\s*` then the
brace-delimited capture. -/
def fencedBody (cs : List Char) : Option (List Char) :=
  match skipReWs cs with
  | c :: rest => if c = lbrace then scanClose [] rest else none
  | [] => none

/-- Match the whole fenced pattern at this exact position.  Like the
backtracking of `(?:json)?`, the tagged alternative is attempted first. -/
def fencedAt (cs : List Char) : Option (List Char) :=
  match stripLit fenceL cs with
  | none => none
  | some afterFence =>
    (match stripLit "json".toList afterFence with
     | some afterTag => fencedBody afterTag
     | none => none) <|> fencedBody afterFence

/-- Leftmost match of the fenced pattern: try each start position from the
left, as `re.search` does. -/
def searchFenced : List Char → Option (List Char)
  | [] => none
  | c :: rest => fencedAt (c :: rest) <|> searchFenced rest

/-- `re.search` of the fenced-code-block pattern with `re.DOTALL`,
returning capture group 1 (the brace-delimited span). -/
def fencedSearch (s : String) : Option String :=
  (searchFenced s.toList).map String.mk

/-- `re.search` of the greedy raw pattern `\{.*\}` with `re.DOTALL`: the
match runs from the first opening brace to the last closing brace of the
whole text, provided the latter comes after the former. -/
def rawSpan (s : String) : Option String :=
  match s.toList.dropWhile (fun c => !(c = lbrace)) with
  | [] => none
  | _ :: t =>
    match t.reverse.dropWhile (fun c => !(c = rbrace)) with
    | [] => none
    | r => some (String.mk (lbrace :: r.reverse))

/-- The natural-language fallback dict built by
`extract_json_from_response` when no JSON is found or parsing fails. -/
def nlWrap (s : String) : JObject :=
  [("response_type", JValue.str "NATURAL_LANGUAGE"),
   ("content", JValue.str (pstrip s))]

/-- Post-processing of a successfully parsed dict: insert an empty-string
`content` if the key is absent. -/
def ensureContent (kvs : JObject) : JObject :=
  if hasKeyA kvs "content" then kvs else objInsert kvs "content" (JValue.str "")

/-- `json.loads` on the extracted span, falling back to the
natural-language wrapping of the raw response when parsing fails.  A span
always starts with an opening brace, so a successful parse is always an
object; the non-object arm is unreachable and grouped with failure. -/
def parseObjOrNL (jsonStr : String) (raw : String) : JObject :=
  match jloads jsonStr with
  | some (.obj kvs) => ensureContent kvs
  | _ => nlWrap raw

/-- `extract_json_from_response` (src/backend/main.py lines 452-487):
first the fenced-block pattern, then the raw brace span, then the
natural-language fallback; a found span is parsed once and parse failure
falls back to natural language. -/
def extract_json_from_response (response : String) : JObject :=
  match fencedSearch response with
  | some j => parseObjOrNL j response
  | none =>
    match rawSpan response with
    | some j => parseObjOrNL j response
    | none => nlWrap response

/-- Hexadecimal digit for string escapes. -/
def hexDigit (n : Nat) : Char :=
  if n < 10 then Char.ofNat (48 + n) else Char.ofNat (87 + n)

/-- Escape one character as Python `json.dumps` does (default
`ensure_ascii`; astral characters would use surrogate pairs, which no
property here depends on). -/
def escapeChar (c : Char) : List Char :=
  if c = '"' then ['\\', '"']
  else if c = '\\' then ['\\', '\\']
  else if c = '\n' then ['\\', 'n']
  else if c = '\t' then ['\\', 't']
  else if c = '\r' then ['\\', 'r']
  else if c = Char.ofNat 8 then ['\\', 'b']
  else if c = Char.ofNat 12 then ['\\', 'f']
  else if c.toNat < 32 ∨ c.toNat > 126 then
    let n := c.toNat
    ['\\', 'u', hexDigit (n / 4096 % 16), hexDigit (n / 256 % 16),
     hexDigit (n / 16 % 16), hexDigit (n % 16)]
  else [c]

/-- Serialize a string literal as `json.dumps` does. -/
def jdumpStr (s : String) : String :=
  String.mk ('"' :: s.toList.foldr (fun c acc => escapeChar c ++ acc) ['"'])

mutual

/-- `json.dumps` with default separators.  Number lexemes are emitted
as-is (Python would re-normalize floats; no property here inspects the
serialized text of a number). -/
def jdump : JValue → String
  | .null => "null"
  | .bool true => "true"
  | .bool false => "false"
  | .num s => s
  | .str s => jdumpStr s
  | .arr xs => "[" ++ jdumpList xs ++ "]"
  | .obj kvs => "\x7b" ++ jdumpFields kvs ++ "\x7d"

/-- Comma-separated array elements. -/
def jdumpList : List JValue → String
  | [] => ""
  | [x] => jdump x
  | x :: y :: t => jdump x ++ ", " ++ jdumpList (y :: t)

/-- Comma-separated object members. -/
def jdumpFields : List (String × JValue) → String
  | [] => ""
  | [(k, v)] => jdumpStr k ++ ": " ++ jdump v
  | (k, v) :: p :: t => jdumpStr k ++ ": " ++ jdump v ++ ", " ++ jdumpFields (p :: t)

end

/-- Zero test on a JSON number lexeme (the mantissa has no nonzero
digit); `NaN`/`Infinity` lexemes are nonzero. -/
def numIsZero (lex : String) : Bool :=
  let cs := match lex.toList with
    | '-' :: t => t
    | t => t
  let mant := cs.takeWhile (fun c => !(c = 'e') && !(c = 'E'))
  mant.all (fun c => c = '0' || c = '.') && mant.any (fun c => c = '0')

/-- Python truthiness of a json-decoded value. -/
def truthy : JValue → Bool
  | .null => false
  | .bool b => b
  | .num s => !numIsZero s
  | .str s => !(s = "")
  | .arr xs => !xs.isEmpty
  | .obj kvs => !kvs.isEmpty

/-- Python truthiness of `d.get(k)` (missing key gives `None`, falsy). -/
def truthyOpt : Option JValue → Bool
  | none => false
  | some v => truthy v

/-- Decimal digits to a natural number. -/
def digitsToNat (cs : List Char) : Nat :=
  cs.foldl (fun a c => a * 10 + (c.toNat - 48)) 0

/-- Value-equals-one test on a JSON number lexeme (models Python
`count == 1` for the decoded number). -/
def numEqOne (lex : String) : Bool :=
  match lex.toList with
  | '-' :: _ => false
  | cs =>
    let mant := cs.takeWhile (fun c => !(c = 'e') && !(c = 'E'))
    let expPart := cs.dropWhile (fun c => !(c = 'e') && !(c = 'E'))
    if mant.all (fun c => c.isDigit || c = '.') && mant.any Char.isDigit then
      let ip := mant.takeWhile (fun c => !(c = '.'))
      let fp := (mant.dropWhile (fun c => !(c = '.'))).drop 1
      let eDigits := expPart.drop 1
      let eVal : Int :=
        match eDigits with
        | '-' :: ds => -(digitsToNat ds : Int)
        | '+' :: ds => (digitsToNat ds : Int)
        | ds => (digitsToNat ds : Int)
      let e10 : Int := eVal - (fp.length : Int)
      let sig := digitsToNat (ip ++ fp)
      if 0 ≤ e10 then sig * 10 ^ e10.toNat = 1 else sig = 10 ^ (-e10).toNat
    else false

/-- Python `value != 1` on a json-decoded value (`True == 1` holds in
Python; nothing else decoded from JSON equals 1 except numbers). -/
def pyNeOne : JValue → Bool
  | .num s => !numEqOne s
  | .bool b => !b
  | _ => true

/-- Python `str(v)` for a json-decoded value, used only to interpolate the
result count into a template sentence.  For containers this is an
approximation of `repr` (no property here inspects that text). -/
def pyStr : JValue → String
  | .num s => s
  | .bool true => "True"
  | .bool false => "False"
  | .null => "None"
  | .str s => s
  | v => jdump v

/-- The three roles a stored transcript message can carry. -/
inductive Role where
  | user
  | assistant
  | system
  deriving DecidableEq

/-- The two wire-protocol roles of a composed prompt turn. -/
inductive PRole where
  | user
  | assistant
  deriving DecidableEq

/-- One transcript entry (the pydantic `Message` model).  Timestamps are
informational only and not modelled; the never-assigned `query` field is
omitted.  `data` carries the structured lookup envelope attached to
assistant messages. -/
structure Msg where
  role : Role
  content : String
  data : Option JObject := none

/-- One atom of a composed turn's text: either the system-context block
(system prompt + schema + instructions + optional table constraint, built
once per invocation of the composer) or a literal piece of text.  String
concatenation in the source becomes atom-list concatenation, so that
occurrences of the system-context block can be counted structurally. -/
inductive Atom where
  | sysCtx
  | txt (s : String)
  deriving DecidableEq

/-- One composed prompt turn, as sent to the model API. -/
structure PTurn where
  role : PRole
  content : List Atom
  deriving DecidableEq

/-- One step of the history fold of `build_conversation_prompt`
(src/backend/main.py lines 396-437).  The accumulator holds the emitted
turns in reverse order, so the source's `messages[-1]` is the head. -/
def promptStep (acc : List PTurn) (m : Msg) : List PTurn :=
  match m.role, acc with
  | .user, ⟨.user, c⟩ :: rest =>
    ⟨.user, c ++ [Atom.txt ("\n\n" ++ m.content)]⟩ :: rest
  | .user, [] =>
    [⟨.user, [Atom.sysCtx, Atom.txt ("\n\n---\n\n" ++ m.content)]⟩]
  | .user, ⟨.assistant, c⟩ :: rest =>
    ⟨.user, [Atom.txt m.content]⟩ :: ⟨PRole.assistant, c⟩ :: rest
  | .system, ⟨.user, c⟩ :: rest =>
    ⟨.user, c ++ [Atom.txt ("\n\n[SYSTEM INFO]\n" ++ m.content)]⟩ :: rest
  | .system, ⟨.assistant, c⟩ :: rest =>
    ⟨.user, [Atom.txt ("[SYSTEM INFO]\n" ++ m.content)]⟩ :: ⟨PRole.assistant, c⟩ :: rest
  | .system, [] =>
    [⟨.user, [Atom.sysCtx, Atom.txt ("\n\n[SYSTEM INFO]\n" ++ m.content)]⟩]
  | .assistant, acc => ⟨.assistant, [Atom.txt m.content]⟩ :: acc

/-- `build_conversation_prompt` (src/backend/main.py lines 368-450): fold
the transcript, then if nothing was emitted produce a single user turn
holding only the system context (the trailing-assistant case is accepted
as-is). -/
def build_conversation_prompt (history : List Msg) : List PTurn :=
  let ms := history.foldl promptStep []
  (if ms.isEmpty then [⟨PRole.user, [Atom.sysCtx]⟩] else ms).reverse

/-- The role sequence of a composed prompt. -/
def promptRoles (p : List PTurn) : List PRole := p.map PTurn.role

/-- No two adjacent elements are equal. -/
def distinctAdj : List PRole → Bool
  | a :: b :: t => decide (a ≠ b) && distinctAdj (b :: t)
  | _ => true

/-- Number of system-context atoms in one turn's text. -/
def countSysAtoms (c : List Atom) : Nat :=
  c.countP (fun a => decide (a = Atom.sysCtx))

/-- Number of occurrences of the system-context block in a composed
prompt. -/
def countSysBlocks (p : List PTurn) : Nat :=
  (p.map (fun t => countSysAtoms t.content)).sum

/-- The composed prompt's first turn starts with the system-context
block. -/
def startsWithSysCtx (p : List PTurn) : Bool :=
  match p with
  | t :: _ => decide (t.content.head? = some Atom.sysCtx)
  | [] => false

/-- No two consecutive transcript messages are both assistant-role,
given the role of the preceding message. -/
def noConsecAssistantFrom (lr : Option Role) : List Msg → Bool
  | [] => true
  | m :: t =>
    !(decide (lr = some Role.assistant) && decide (m.role = Role.assistant)) &&
      noConsecAssistantFrom (some m.role) t

/-- No two consecutive transcript messages are both assistant-role. -/
def noConsecAssistant (h : List Msg) : Bool := noConsecAssistantFrom none h

/-- The transcript is empty or does not start with an assistant
message. -/
def headNotAssistant (h : List Msg) : Bool :=
  match h with
  | [] => true
  | m :: _ => decide (m.role ≠ Role.assistant)

/-- The per-operation parameter allow-lists (`VALID_PARAMS`,
src/backend/main.py lines 498-521); Python sets, used only for
membership, modelled as lists.  Any other operation name has no entry and
`.get` falls back to the empty set. -/
def validParams : String → List String
  | "Query" =>
    ["TableName", "IndexName", "Select", "AttributesToGet", "Limit",
     "ConsistentRead", "KeyConditions", "QueryFilter", "ConditionalOperator",
     "ScanIndexForward", "ExclusiveStartKey", "ReturnConsumedCapacity",
     "ProjectionExpression", "FilterExpression", "KeyConditionExpression",
     "ExpressionAttributeNames", "ExpressionAttributeValues"]
  | "Scan" =>
    ["TableName", "IndexName", "AttributesToGet", "Limit", "Select",
     "ScanFilter", "ConditionalOperator", "ExclusiveStartKey",
     "ReturnConsumedCapacity", "TotalSegments", "Segment",
     "ProjectionExpression", "FilterExpression", "ExpressionAttributeNames",
     "ExpressionAttributeValues", "ConsistentRead"]
  | "GetItem" =>
    ["TableName", "Key", "AttributesToGet", "ConsistentRead",
     "ReturnConsumedCapacity", "ProjectionExpression",
     "ExpressionAttributeNames"]
  | "BatchGetItem" => ["RequestItems", "ReturnConsumedCapacity"]
  | _ => []

/-- The parameter filtering of `execute_dynamodb_query` (lines 530-541):
drop the `operation` key, then keep exactly the keys in the operation's
allow-list (anything else is silently dropped and only logged). -/
def filterQueryParams (valid : List String) (query : JObject) : JObject :=
  (query.filter (fun kv => !(kv.1 = "operation"))).filter
    (fun kv => valid.contains kv.1)

/-- `VALID_PARAMS.get(operation, set())`: an unhashable key (a decoded
dict or list) raises `TypeError`; any hashable non-matching key falls back
to the empty set. -/
def allowListFor : JValue → Except String (List String)
  | .obj _ => .error "TypeError: unhashable type: 'dict'"
  | .arr _ => .error "TypeError: unhashable type: 'list'"
  | .str s => .ok (validParams s)
  | _ => .ok []

/-- The behaviour of the DynamoDB client: one function from operation
name and keyword arguments to a native response or a raised exception
(represented by its message). -/
abbrev DynamoStore := String → JObject → Except String JObject

/-- The body of `execute_dynamodb_query`'s `try` block (lines 523-567)
plus the two reads before it: validation, parameter filtering and
dispatch.  Every `raise` and every store fault is an `Except.error`. -/
def execInner (store : DynamoStore) (query : JObject) : Except String JObject :=
  let operation := (lookupA query "operation").getD (JValue.str "Query")
  if !truthyOpt (lookupA query "TableName") && !jvalEqStr operation "BatchGetItem" then
    .error "TableName is required in query"
  else
    match allowListFor operation with
    | .error e => .error e
    | .ok valid =>
      let params := filterQueryParams valid query
      if jvalEqStr operation "Query" then store "Query" params
      else if jvalEqStr operation "Scan" then store "Scan" params
      else if jvalEqStr operation "GetItem" then store "GetItem" params
      else if jvalEqStr operation "BatchGetItem" then
        match lookupA params "RequestItems" with
        | none => .error "BatchGetItem requires RequestItems"
        | some v => store "BatchGetItem" [("RequestItems", v)]
      else .error ("Unsupported operation: " ++ pyStr operation)

/-- The environment flags read at startup (`LLM_ANALYZE_RESULTS`,
`ENABLE_ERROR_VIEWING`). -/
structure Config where
  llmAnalyzeResults : Bool
  enableErrorViewing : Bool

/-- `execute_dynamodb_query` (lines 489-594): on success the store's
native response is returned as-is; every exception is converted to the
failure envelope carrying the failing spec (plus optional diagnostics;
runtime-only metadata such as the traceback is not modelled). -/
def execute_dynamodb_query (cfg : Config) (store : DynamoStore)
    (query : JObject) : JObject :=
  match execInner store query with
  | .ok resp => resp
  | .error e =>
    let operation := (lookupA query "operation").getD (JValue.str "Query")
    let tbl := (lookupA query "TableName").getD JValue.null
    let base : JObject :=
      [("Error", JValue.str e),
       ("Message", JValue.str "Failed to execute DynamoDB query"),
       ("_generated_query", JValue.obj query)]
    if cfg.enableErrorViewing then
      base ++ [("query_error",
        JValue.obj [("exception_message", JValue.str e),
                    ("operation", operation), ("table_name", tbl)])]
    else base

/-- The in-memory session store `conversations`: conversation id to
ordered transcript. -/
abbrev ConvMap := List (String × List Msg)

/-- `conversations.get(cid, [])` as a transcript. -/
def transcript (convs : ConvMap) (cid : String) : List Msg :=
  (lookupA convs cid).getD []

/-- `conversations[cid].append(m)` (the id is always present when the
source executes this). -/
def appendMsg (convs : ConvMap) (cid : String) (m : Msg) : ConvMap :=
  objInsert convs cid (transcript convs cid ++ [m])

/-- The oracle (Bedrock model invocation): a composed prompt to either
the model's text or a raised transport exception. -/
abbrev Oracle := List PTurn → Except String String

/-- Fixed apology when the lookup envelope signals failure (lines
291-294; the two source string literals concatenate to this text). -/
def queryExecApology : String :=
  "I encountered an error while trying to execute the database query I generated. Please try rephrasing your question, and I\x27ll attempt to answer it again."

/-- Fixed apology when a string query fails to parse (line 272). -/
def parseFailApology : String :=
  "I encountered an error parsing the database query. Please try rephrasing your question."

/-- Fixed apology when the query content has an unusable type (line 277). -/
def formatApology : String :=
  "I encountered an error with the database query format. Please try rephrasing your question."

/-- The QUERY workflow of `process_with_history` once the lookup spec is
in hand (lines 279-332).  Returns the updated session store (the analyze
path appends a system message before the second oracle call, so that
append survives a failing second call) and either a raised exception or
`(final text as a Python value, optional structured data)`. -/
def runQueryPath (cfg : Config) (oracle : Oracle) (store : DynamoStore)
    (cid : String) (convs : ConvMap) (genQ : JObject) :
    ConvMap × Except String (Option JValue × Option JObject) :=
  let results := execute_dynamodb_query cfg store genQ
  if hasKeyA results "Error" then
    (convs, .ok (some (JValue.str queryExecApology), some results))
  else if cfg.llmAnalyzeResults then
    let sysMsg : Msg := { role := Role.system,
                          content := "Query Results:\n" ++ jdump (JValue.obj results) }
    let convs2 := appendMsg convs cid sysMsg
    match oracle (build_conversation_prompt (transcript convs2 cid)) with
    | .error e => (convs2, .error e)
    | .ok analysis =>
      let analysisObj := extract_json_from_response analysis
      let responseText := (lookupA analysisObj "content").getD (JValue.str "")
      let results2 := objInsert results "_generated_query" (JValue.obj genQ)
      (convs2, .ok (some responseText, some results2))
  else
    let cnt := (lookupA results "Count").getD (JValue.num "0")
    let txt := "Query executed successfully. Found " ++ pyStr cnt ++ " result"
      ++ (if pyNeOne cnt then "s" else "") ++ "."
    let results2 := objInsert results "_generated_query" (JValue.obj genQ)
    (convs, .ok (some (JValue.str txt), some results2))

/-- Directive handling of `process_with_history` (lines 261-343): the
QUERY branch resolves the content to a dict (parsing a string content,
re-raising the `AttributeError` the executor's pre-`try` reads would
raise on a parsed non-dict), every other `response_type` returns the
content directly (coerced to text only in the unknown-type branch). -/
def dispatchDirective (cfg : Config) (oracle : Oracle) (store : DynamoStore)
    (cid : String) (convs : ConvMap) (respObj : JObject) :
    ConvMap × Except String (Option JValue × Option JObject) :=
  let rt := (lookupA respObj "response_type").getD (JValue.str "NATURAL_LANGUAGE")
  let contentOpt := lookupA respObj "content"
  if jvalEqStr rt "QUERY" then
    match contentOpt with
    | some (.str s) =>
      match jloads s with
      | some (.obj kvs) => runQueryPath cfg oracle store cid convs kvs
      | some _ =>
        (convs, .error "AttributeError: object has no attribute get")
      | none => (convs, .ok (some (JValue.str parseFailApology), none))
    | some (.obj kvs) => runQueryPath cfg oracle store cid convs kvs
    | _ => (convs, .ok (some (JValue.str formatApology), none))
  else if jvalEqStr rt "NATURAL_LANGUAGE" then
    (convs, .ok (contentOpt, none))
  else
    let coerced := match contentOpt with
      | some (.str s) => s
      | some v => jdump v
      | none => "null"
    (convs, .ok (some (JValue.str coerced), none))

/-- `process_with_history` (lines 242-350): compose the prompt from the
current transcript, invoke the oracle (transport failures re-raise), then
handle the parsed directive. -/
def process_with_history (cfg : Config) (oracle : Oracle) (store : DynamoStore)
    (cid : String) (convs : ConvMap) :
    ConvMap × Except String (Option JValue × Option JObject) :=
  match oracle (build_conversation_prompt (transcript convs cid)) with
  | .error e => (convs, .error e)
  | .ok llmResponse =>
    dispatchDirective cfg oracle store cid convs
      (extract_json_from_response llmResponse)

/-- The HTTP response of the chat endpoint. -/
structure ChatResp where
  conversation_id : String
  response : String
  history : List Msg

/-- `request.conversation_id or str(uuid.uuid4())`: an absent or empty
(falsy) id is replaced by a fresh one. -/
def chatConversationId (reqConvId : Option String) (freshId : String) : String :=
  match reqConvId with
  | some s => if s = "" then freshId else s
  | none => freshId

/-- The user-facing error text of the chat endpoint's handler (line
223). -/
def errorText (e : String) : String :=
  "I encountered an error while processing your request: " ++ e

/-- Stands for `str(ValidationError)` when the pydantic `Message` model
rejects a non-string response value; its exact text matters to no
property here. -/
def validationErrorMsg : String :=
  "1 validation error for Message: content: Input should be a valid string"

/-- The `except` block of the chat endpoint (lines 215-240): re-create
the conversation if it vanished, append the assistant error message, and
answer with the error text. -/
def chatErrorPath (e : String) (cid : String) (userMsg : Option Msg)
    (freshId2 : String) (convs : ConvMap) : ChatResp × ConvMap :=
  let errMsg := errorText e
  let assistantMsg : Msg := { role := Role.assistant, content := errMsg }
  let convs2 :=
    if cid ≠ "" ∧ (lookupA convs cid).isNone then
      objInsert convs cid (match userMsg with | some m => [m] | none => [])
    else convs
  let convs3 := if cid ≠ "" then appendMsg convs2 cid assistantMsg else convs2
  ({ conversation_id := if cid ≠ "" then cid else freshId2,
     response := errMsg,
     history := transcript convs3 cid }, convs3)

/-- The body of the chat endpoint once the conversation id is fixed
(lines 176-240): create the session if new, append the user message, run
the workflow, then append the assistant message — via the `except` path
when the workflow raised or when its result is not a string (a `None` or
structured content returned by the NATURAL_LANGUAGE branch fails the
pydantic `Message` validation). -/
def chatTurn (cfg : Config) (oracle : Oracle) (store : DynamoStore)
    (cid : String) (reqMsg : String) (freshId2 : String)
    (convs : ConvMap) : ChatResp × ConvMap :=
  let convs1 := if (lookupA convs cid).isNone then objInsert convs cid [] else convs
  let userMsg : Msg := { role := Role.user, content := reqMsg }
  let convs2 := appendMsg convs1 cid userMsg
  match process_with_history cfg oracle store cid convs2 with
  | (convs3, .ok (some (.str finalResponse), queryData)) =>
    let assistantMsg : Msg := { role := Role.assistant,
                                content := finalResponse, data := queryData }
    let convs4 := appendMsg convs3 cid assistantMsg
    ({ conversation_id := cid, response := finalResponse,
       history := transcript convs4 cid }, convs4)
  | (convs3, .ok (_, _)) =>
    chatErrorPath validationErrorMsg cid (some userMsg) freshId2 convs3
  | (convs3, .error e) => chatErrorPath e cid (some userMsg) freshId2 convs3

/-- The chat endpoint (lines 160-240).  `freshId` and `freshId2` stand
for the two `uuid.uuid4()` calls (real UUIDs, hence never empty). -/
def chat (cfg : Config) (oracle : Oracle) (store : DynamoStore)
    (reqConvId : Option String) (reqMsg : String)
    (freshId freshId2 : String) (convs : ConvMap) : ChatResp × ConvMap :=
  chatTurn cfg oracle store (chatConversationId reqConvId freshId) reqMsg
    freshId2 convs

/-- Number of messages with the given role in a transcript. -/
def countRole (r : Role) (l : List Msg) : Nat :=
  l.countP (fun m => decide (m.role = r))

theorem lookupA_objInsert_self {α : Type} (l : List (String × α)) (k : String) (v : α) :
    lookupA (objInsert l k v) k = some v := by
  induction l with
  | nil => simp [objInsert, lookupA]
  | cons kv t ih =>
    obtain ⟨k0, v0⟩ := kv
    by_cases h : k0 = k
    · simp [objInsert, h, lookupA]
    · simp [objInsert, h, lookupA, ih]

theorem hasKeyA_ensureContent (kvs : JObject) :
    hasKeyA (ensureContent kvs) "content" = true := by
  unfold ensureContent
  split
  · assumption
  · simp [hasKeyA, lookupA_objInsert_self]

theorem hasKeyA_nlWrap (s : String) : hasKeyA (nlWrap s) "content" = true := by
  simp [nlWrap, hasKeyA, lookupA]

theorem hasKeyA_parseObjOrNL (j s : String) :
    hasKeyA (parseObjOrNL j s) "content" = true := by
  unfold parseObjOrNL
  cases hj : jloads j with
  | some v =>
    cases v <;> simp [hasKeyA_nlWrap, hasKeyA_ensureContent]
  | none => simp [hasKeyA_nlWrap]

/-- Claim C2 (amended): for every input string the Directive Parser
returns without raising, and its result contains a `content` key — whose
value can be JSON null when a parsed object itself maps `content` to
null; and when no JSON span is found at all it returns
`(NATURAL_LANGUAGE, input trimmed)`. -/
theorem c2_directive_totality (s : String) :
    hasKeyA (extract_json_from_response s) "content" = true ∧
    (fencedSearch s = none → rawSpan s = none →
      extract_json_from_response s = nlWrap s) := by
  constructor
  · unfold extract_json_from_response
    cases hf : fencedSearch s with
    | some j => simp [hasKeyA_parseObjOrNL]
    | none =>
      cases hr : rawSpan s with
      | some j => simp [hasKeyA_parseObjOrNL]
      | none => simp [hasKeyA_nlWrap]
  · intro hf hr
    unfold extract_json_from_response
    rw [hf, hr]

theorem c2_directive_totality_witness :
    hasKeyA (extract_json_from_response "just some prose") "content" = true ∧
    extract_json_from_response "just some prose" = nlWrap "just some prose" :=
  ⟨(c2_directive_totality "just some prose").1,
   (c2_directive_totality "just some prose").2 (by decide) (by decide)⟩

/-- Claim C2 counterexample: on the input `\x7b"content": null\x7d` the
parser returns a structure whose `content` field is JSON null, so the
result does not contain a non-null `content` field as claimed. -/
theorem c2_counterexample :
    lookupA (extract_json_from_response "\x7b\"content\": null\x7d") "content"
      = some JValue.null := by
  rfl

/-- Claim C7: extraction order of the Directive Parser — the first match
of the fenced-block pattern wins; otherwise the raw brace span (first
opening brace to last closing brace); a found span is parsed once, with
parse failure and the no-span case both falling back to the
natural-language wrapping of the raw input. -/
theorem c7_extraction_order (s : String) :
    (∀ j, fencedSearch s = some j →
      extract_json_from_response s = parseObjOrNL j s) ∧
    (fencedSearch s = none → ∀ j, rawSpan s = some j →
      extract_json_from_response s = parseObjOrNL j s) ∧
    (fencedSearch s = none → rawSpan s = none →
      extract_json_from_response s = nlWrap s) := by
  refine ⟨?_, ?_, ?_⟩
  · intro j hj
    unfold extract_json_from_response
    rw [hj]
  · intro hf j hj
    unfold extract_json_from_response
    rw [hf, hj]
  · intro hf hr
    unfold extract_json_from_response
    rw [hf, hr]

/-- The wire-protocol role a transcript role is folded into: system
messages always end up inside user turns. -/
def toPRole : Role → PRole
  | .assistant => PRole.assistant
  | _ => PRole.user

theorem promptStep_roles (lr : Option Role) (acc : List PTurn) (m : Msg)
    (h1 : distinctAdj (promptRoles acc) = true)
    (h2 : (promptRoles acc).head? = lr.map toPRole)
    (h3 : ¬(lr = some Role.assistant ∧ m.role = Role.assistant)) :
    distinctAdj (promptRoles (promptStep acc m)) = true ∧
    (promptRoles (promptStep acc m)).head? = some (toPRole m.role) := by
  rcases acc with _ | ⟨⟨pr, c⟩, rest⟩
  · cases hm : m.role <;>
      simp [promptStep, hm, promptRoles, distinctAdj, toPRole]
  · cases pr with
    | user =>
      cases hm : m.role with
      | user =>
        simp only [promptStep, hm, promptRoles, List.map_cons] at h1 ⊢
        exact ⟨h1, rfl⟩
      | system =>
        simp only [promptStep, hm, promptRoles, List.map_cons] at h1 ⊢
        exact ⟨h1, rfl⟩
      | assistant =>
        simp only [promptStep, hm, promptRoles, List.map_cons] at h1 ⊢
        refine ⟨?_, rfl⟩
        simp [distinctAdj, h1]
    | assistant =>
      cases hm : m.role with
      | user =>
        simp only [promptStep, hm, promptRoles, List.map_cons] at h1 ⊢
        refine ⟨?_, rfl⟩
        simp [distinctAdj, h1]
      | system =>
        simp only [promptStep, hm, promptRoles, List.map_cons] at h1 ⊢
        refine ⟨?_, rfl⟩
        simp [distinctAdj, h1]
      | assistant =>
        exfalso
        apply h3
        refine ⟨?_, hm⟩
        simp only [promptRoles, List.map_cons, List.head?_cons] at h2
        cases lr with
        | none => simp at h2
        | some r =>
          cases r <;> simp [toPRole] at h2 ⊢

theorem foldl_promptStep_alternates :
    ∀ (h : List Msg) (lr : Option Role) (acc : List PTurn),
      noConsecAssistantFrom lr h = true →
      distinctAdj (promptRoles acc) = true →
      (promptRoles acc).head? = lr.map toPRole →
      distinctAdj (promptRoles (h.foldl promptStep acc)) = true := by
  intro h
  induction h with
  | nil =>
    intro lr acc _ h1 _
    simpa using h1
  | cons m t ih =>
    intro lr acc hnc h1 h2
    rw [List.foldl_cons]
    have hconj := hnc
    simp only [noConsecAssistantFrom, Bool.and_eq_true] at hconj
    have hno : ¬(lr = some Role.assistant ∧ m.role = Role.assistant) := by
      intro ⟨ha, hb⟩
      rw [ha, hb] at hconj
      simp at hconj
    obtain ⟨d1, d2⟩ := promptStep_roles lr acc m h1 h2 hno
    exact ih (some m.role) (promptStep acc m) hconj.2 d1 (by rw [d2]; rfl)

theorem distinctAdj_append_singleton (l : List PRole) (x : PRole) :
    distinctAdj (l ++ [x])
      = (distinctAdj l && (match l.getLast? with
          | none => true
          | some y => decide (y ≠ x))) := by
  induction l with
  | nil => simp [distinctAdj]
  | cons a t ih =>
    cases t with
    | nil => simp [distinctAdj, Bool.and_comm]
    | cons b t2 =>
      have : ((a :: b :: t2) ++ [x]) = a :: ((b :: t2) ++ [x]) := by simp
      rw [this]
      show (decide (a ≠ b) && distinctAdj ((b :: t2) ++ [x])) = _
      rw [ih, List.getLast?_cons_cons]
      show _ = ((decide (a ≠ b) && distinctAdj (b :: t2)) && _)
      rw [Bool.and_assoc]

theorem distinctAdj_reverse (l : List PRole) :
    distinctAdj l.reverse = distinctAdj l := by
  induction l with
  | nil => rfl
  | cons a t ih =>
    rw [List.reverse_cons, distinctAdj_append_singleton, ih, List.getLast?_reverse]
    cases t with
    | nil => simp [distinctAdj]
    | cons b t2 =>
      show _ = (decide (a ≠ b) && distinctAdj (b :: t2))
      simp only [List.head?_cons]
      rw [Bool.and_comm]
      have : decide (b ≠ a) = decide (a ≠ b) := decide_eq_decide.mpr ne_comm
      rw [this]

/-- Claim C1 (amended): for every transcript in which no two consecutive
messages are both assistant-role — which includes every transcript the
orchestrator itself produces — the composed prompt never contains two
adjacent turns with the same role. -/
theorem c1_prompt_alternation (h : List Msg)
    (hna : noConsecAssistant h = true) :
    distinctAdj (promptRoles (build_conversation_prompt h)) = true := by
  have halt : distinctAdj (promptRoles (h.foldl promptStep [])) = true :=
    foldl_promptStep_alternates h none [] hna rfl rfl
  rcases hms : h.foldl promptStep [] with _ | ⟨x0, xs⟩
  · simp [build_conversation_prompt, hms, promptRoles, distinctAdj]
  · rw [hms] at halt
    simp only [build_conversation_prompt, hms, List.isEmpty_cons,
      Bool.false_eq_true, if_false, promptRoles, List.map_reverse,
      distinctAdj_reverse]
    simpa [promptRoles] using halt

theorem c1_prompt_alternation_witness :
    noConsecAssistant [⟨Role.user, "hello", none⟩, ⟨Role.assistant, "hi", none⟩,
      ⟨Role.system, "result", none⟩, ⟨Role.user, "next", none⟩] = true ∧
    distinctAdj (promptRoles (build_conversation_prompt
      [⟨Role.user, "hello", none⟩, ⟨Role.assistant, "hi", none⟩,
       ⟨Role.system, "result", none⟩, ⟨Role.user, "next", none⟩])) = true :=
  ⟨by decide,
   c1_prompt_alternation
     [⟨Role.user, "hello", none⟩, ⟨Role.assistant, "hi", none⟩,
      ⟨Role.system, "result", none⟩, ⟨Role.user, "next", none⟩] (by decide)⟩

/-- Claim C1 counterexample: a transcript holding two consecutive
assistant messages is folded into two adjacent assistant turns, so the
claimed alternation fails for arbitrary role sequences. -/
theorem c1_counterexample :
    distinctAdj (promptRoles (build_conversation_prompt
      [⟨Role.assistant, "a", none⟩, ⟨Role.assistant, "b", none⟩])) = false := by
  decide

theorem countSysBlocks_cons (t : PTurn) (l : List PTurn) :
    countSysBlocks (t :: l) = countSysAtoms t.content + countSysBlocks l := by
  simp [countSysBlocks]

theorem countSysAtoms_append (c1 c2 : List Atom) :
    countSysAtoms (c1 ++ c2) = countSysAtoms c1 + countSysAtoms c2 := by
  simp [countSysAtoms, List.countP_append]

theorem countSysAtoms_txt (s : String) : countSysAtoms [Atom.txt s] = 0 := by
  rfl

theorem head?_append_some {α : Type} (l1 l2 : List α) (a : α)
    (h : l1.head? = some a) : (l1 ++ l2).head? = some a := by
  cases l1 <;> simp_all

theorem promptStep_sys (acc : List PTurn) (m : Msg)
    (h1 : countSysBlocks acc = 1)
    (h2 : ∃ t, acc.getLast? = some t ∧ t.content.head? = some Atom.sysCtx) :
    countSysBlocks (promptStep acc m) = 1 ∧
    ∃ t, (promptStep acc m).getLast? = some t ∧
      t.content.head? = some Atom.sysCtx := by
  obtain ⟨t0, hlast, hhead⟩ := h2
  obtain ⟨mr, mc, md⟩ := m
  rcases acc with _ | ⟨⟨pr, c⟩, rest⟩
  · simp at hlast
  · rcases rest with _ | ⟨r1, rest2⟩
    · have ht0 : t0 = ⟨pr, c⟩ := by simpa using hlast.symm
      subst ht0
      have hcc : countSysAtoms c = 1 := by
        simpa [countSysBlocks_cons, countSysBlocks] using h1
      cases mr <;> cases pr
      · refine ⟨?_, ⟨⟨PRole.user, c ++ [Atom.txt ("\n\n" ++ mc)]⟩,
          by simp [promptStep], head?_append_some _ _ _ hhead⟩⟩
        simpa [promptStep, countSysBlocks, countSysAtoms,
          List.countP_append] using hcc
      · refine ⟨?_, ⟨⟨PRole.assistant, c⟩, by simp [promptStep], hhead⟩⟩
        simpa [promptStep, countSysBlocks, countSysAtoms,
          List.countP_append] using hcc
      · refine ⟨?_, ⟨⟨PRole.user, c⟩, by simp [promptStep], hhead⟩⟩
        simpa [promptStep, countSysBlocks, countSysAtoms,
          List.countP_append] using hcc
      · refine ⟨?_, ⟨⟨PRole.assistant, c⟩, by simp [promptStep], hhead⟩⟩
        simpa [promptStep, countSysBlocks, countSysAtoms,
          List.countP_append] using hcc
      · refine ⟨?_, ⟨⟨PRole.user, c ++ [Atom.txt ("\n\n[SYSTEM INFO]\n" ++ mc)]⟩,
          by simp [promptStep], head?_append_some _ _ _ hhead⟩⟩
        simpa [promptStep, countSysBlocks, countSysAtoms,
          List.countP_append] using hcc
      · refine ⟨?_, ⟨⟨PRole.assistant, c⟩, by simp [promptStep], hhead⟩⟩
        simpa [promptStep, countSysBlocks, countSysAtoms,
          List.countP_append] using hcc
    · have hlast2 : (r1 :: rest2).getLast? = some t0 := by
        simpa [List.getLast?_cons_cons] using hlast
      cases mr <;> cases pr
      · refine ⟨?_, ⟨t0, ?_, hhead⟩⟩
        · simp only [promptStep, countSysBlocks_cons, countSysAtoms_append,
            countSysAtoms_txt] at h1 ⊢
          omega
        · simp only [promptStep]
          rw [List.getLast?_cons_cons]
          exact hlast2
      · refine ⟨?_, ⟨t0, ?_, hhead⟩⟩
        · simp only [promptStep, countSysBlocks_cons, countSysAtoms_txt] at h1 ⊢
          omega
        · simp only [promptStep]
          rw [List.getLast?_cons_cons, List.getLast?_cons_cons]
          exact hlast2
      · refine ⟨?_, ⟨t0, ?_, hhead⟩⟩
        · simp only [promptStep, countSysBlocks_cons, countSysAtoms_txt] at h1 ⊢
          omega
        · simp only [promptStep]
          rw [List.getLast?_cons_cons, List.getLast?_cons_cons]
          exact hlast2
      · refine ⟨?_, ⟨t0, ?_, hhead⟩⟩
        · simp only [promptStep, countSysBlocks_cons, countSysAtoms_txt] at h1 ⊢
          omega
        · simp only [promptStep]
          rw [List.getLast?_cons_cons, List.getLast?_cons_cons]
          exact hlast2
      · refine ⟨?_, ⟨t0, ?_, hhead⟩⟩
        · simp only [promptStep, countSysBlocks_cons, countSysAtoms_append,
            countSysAtoms_txt] at h1 ⊢
          omega
        · simp only [promptStep]
          rw [List.getLast?_cons_cons]
          exact hlast2
      · refine ⟨?_, ⟨t0, ?_, hhead⟩⟩
        · simp only [promptStep, countSysBlocks_cons, countSysAtoms_txt] at h1 ⊢
          omega
        · simp only [promptStep]
          rw [List.getLast?_cons_cons, List.getLast?_cons_cons]
          exact hlast2

theorem foldl_promptStep_sys :
    ∀ (h : List Msg) (acc : List PTurn),
      countSysBlocks acc = 1 →
      (∃ t, acc.getLast? = some t ∧ t.content.head? = some Atom.sysCtx) →
      countSysBlocks (h.foldl promptStep acc) = 1 ∧
      ∃ t, (h.foldl promptStep acc).getLast? = some t ∧
        t.content.head? = some Atom.sysCtx := by
  intro h
  induction h with
  | nil => intro acc h1 h2; exact ⟨h1, h2⟩
  | cons m t ih =>
    intro acc h1 h2
    rw [List.foldl_cons]
    obtain ⟨d1, d2⟩ := promptStep_sys acc m h1 h2
    exact ih (promptStep acc m) d1 d2

/-- Claim C5 (amended): for every transcript that is empty or whose first
message is not assistant-role — which includes every transcript the
orchestrator itself produces — the system-context block occurs exactly
once in the composed prompt, at the very start of the first emitted
turn. -/
theorem c5_single_system_block (h : List Msg)
    (hh : headNotAssistant h = true) :
    countSysBlocks (build_conversation_prompt h) = 1 ∧
    startsWithSysCtx (build_conversation_prompt h) = true := by
  cases h with
  | nil => exact ⟨by decide, by decide⟩
  | cons m t =>
    have hbase : countSysBlocks (promptStep [] m) = 1 ∧
        ∃ t0, (promptStep [] m).getLast? = some t0 ∧
          t0.content.head? = some Atom.sysCtx := by
      have hm1 : ¬ m.role = Role.assistant := by
        simpa [headNotAssistant] using hh
      obtain ⟨mr, mc, md⟩ := m
      cases mr with
      | assistant => exact absurd rfl hm1
      | user =>
        refine ⟨by simp [promptStep, countSysBlocks, countSysAtoms],
          ⟨⟨PRole.user, [Atom.sysCtx, Atom.txt ("\n\n---\n\n" ++ mc)]⟩,
            by simp [promptStep], rfl⟩⟩
      | system =>
        refine ⟨by simp [promptStep, countSysBlocks, countSysAtoms],
          ⟨⟨PRole.user, [Atom.sysCtx, Atom.txt ("\n\n[SYSTEM INFO]\n" ++ mc)]⟩,
            by simp [promptStep], rfl⟩⟩
    obtain ⟨hc, t0, hl, hh0⟩ :=
      foldl_promptStep_sys t (promptStep [] m) hbase.1 hbase.2
    rcases hms : t.foldl promptStep (promptStep [] m) with _ | ⟨x0, xs⟩
    · rw [hms] at hl
      simp at hl
    · rw [hms] at hc hl
      have hbuild : build_conversation_prompt (m :: t) = (x0 :: xs).reverse := by
        simp [build_conversation_prompt, hms]
      rw [hbuild]
      constructor
      · have hrc : countSysBlocks ((x0 :: xs).reverse) = countSysBlocks (x0 :: xs) := by
          simp only [countSysBlocks, List.map_reverse, List.sum_reverse]
        rw [hrc]
        exact hc
      · have hrevhead : ((x0 :: xs).reverse).head? = some t0 := by
          rw [List.head?_reverse]
          exact hl
        rcases hrev : (x0 :: xs).reverse with _ | ⟨r0, rr⟩
        · rw [hrev] at hrevhead
          simp at hrevhead
        · rw [hrev] at hrevhead
          simp only [List.head?_cons, Option.some.injEq] at hrevhead
          subst hrevhead
          simp [startsWithSysCtx, hh0]

theorem c5_single_system_block_witness :
    headNotAssistant [⟨Role.user, "q", none⟩] = true ∧
    countSysBlocks (build_conversation_prompt [⟨Role.user, "q", none⟩]) = 1 ∧
    startsWithSysCtx (build_conversation_prompt [⟨Role.user, "q", none⟩]) = true :=
  ⟨by decide,
   (c5_single_system_block [⟨Role.user, "q", none⟩] (by decide)).1,
   (c5_single_system_block [⟨Role.user, "q", none⟩] (by decide)).2⟩

/-- Claim C5 counterexample: a transcript starting with an assistant
message yields a prompt with no system-context block at all (the
assistant branch of the fold never attaches it), so the block does not
occur exactly once for every transcript. -/
theorem c5_counterexample :
    ¬(countSysBlocks (build_conversation_prompt [⟨Role.assistant, "a", none⟩]) = 1 ∧
      startsWithSysCtx (build_conversation_prompt [⟨Role.assistant, "a", none⟩]) = true) := by
  decide

theorem jvalEqStr_iff (v : JValue) (t : String) :
    jvalEqStr v t = true ↔ v = JValue.str t := by
  cases v <;> simp [jvalEqStr]

theorem jvalEqStr_eq_false (v : JValue) (t : String) (h : v ≠ JValue.str t) :
    jvalEqStr v t = false := by
  rcases hb : jvalEqStr v t with _ | _
  · rfl
  · exact absurd ((jvalEqStr_iff v t).mp hb) h

theorem lookupA_filter_keyPred (p : String → Bool) (q : JObject) (k : String) :
    lookupA (q.filter (fun kv => p kv.1)) k
      = if p k then lookupA q k else none := by
  induction q with
  | nil => simp [lookupA]
  | cons kv t ih =>
    obtain ⟨k0, v0⟩ := kv
    by_cases hp : p k0
    · by_cases hk : k0 = k
      · subst hk
        simp [List.filter_cons, hp, lookupA]
      · simp [List.filter_cons, hp, lookupA, hk, ih]
    · by_cases hk : k0 = k
      · subst hk
        simp [List.filter_cons, hp, lookupA, ih]
      · simp [List.filter_cons, hp, lookupA, hk, ih]

theorem filterQueryParams_idem (valid : List String) (q : JObject) :
    filterQueryParams valid (filterQueryParams valid q) = filterQueryParams valid q := by
  unfold filterQueryParams
  have h1 : (List.filter (fun kv => valid.contains kv.1)
      (List.filter (fun kv => !(kv.1 = "operation")) q)).filter
        (fun kv => !(kv.1 = "operation"))
      = List.filter (fun kv => valid.contains kv.1)
          (List.filter (fun kv => !(kv.1 = "operation")) q) := by
    rw [List.filter_eq_self]
    intro a ha
    have ha1 := List.mem_of_mem_filter ha
    have ha2 := List.of_mem_filter ha1
    exact ha2
  rw [h1, List.filter_eq_self]
  intro a ha
  have ha2 := List.of_mem_filter ha
  exact ha2

theorem lookupA_filterQueryParams (valid : List String) (q : JObject) (k : String) :
    lookupA (filterQueryParams valid q) k
      = if !(k = "operation") && valid.contains k then lookupA q k else none := by
  unfold filterQueryParams
  rw [lookupA_filter_keyPred (fun key => valid.contains key),
      lookupA_filter_keyPred (fun key => !(key = "operation"))]
  cases h1 : valid.contains k <;> by_cases h2 : k = "operation" <;>
    simp [h1, h2]

/-- Claim C6: the parameter filtering keeps exactly the spec fields in the
chosen operation kind's allow-list (with their values) and silently drops
every other field, and it is a deterministic function of the spec, so
applying it twice gives the same filtered field set as applying it
once. -/
theorem c6_allowlist_filtering (opName : String) (query : JObject) (k : String) :
    (lookupA (filterQueryParams (validParams opName) query) k
      = if !(k = "operation") && (validParams opName).contains k
        then lookupA query k else none) ∧
    filterQueryParams (validParams opName)
        (filterQueryParams (validParams opName) query)
      = filterQueryParams (validParams opName) query := by
  constructor
  · exact lookupA_filterQueryParams (validParams opName) query k
  · exact filterQueryParams_idem (validParams opName) query

/-- Claim C4: the Query Executor never raises past its boundary: every
call returns either the store's success response unchanged or the failure
envelope containing `Error`, `Message` and `_generated_query` with the
original spec echoed; a missing table name for any operation other than
BatchGetItem, and an unsupported operation name, are among the
failures. -/
theorem c4_executor_failure_envelope (cfg : Config) (store : DynamoStore)
    (query : JObject) :
    ((∃ resp, execInner store query = Except.ok resp ∧
        execute_dynamodb_query cfg store query = resp) ∨
     (∃ e, execInner store query = Except.error e ∧
        lookupA (execute_dynamodb_query cfg store query) "Error"
          = some (JValue.str e) ∧
        lookupA (execute_dynamodb_query cfg store query) "Message"
          = some (JValue.str "Failed to execute DynamoDB query") ∧
        lookupA (execute_dynamodb_query cfg store query) "_generated_query"
          = some (JValue.obj query))) ∧
    (∀ opName, lookupA query "operation" = some (JValue.str opName) →
      opName ∉ (["Query", "Scan", "GetItem", "BatchGetItem"] : List String) →
      ∃ e, execInner store query = Except.error e) ∧
    (lookupA query "TableName" = none →
      (lookupA query "operation").getD (JValue.str "Query") ≠ JValue.str "BatchGetItem" →
      execInner store query = Except.error "TableName is required in query") := by
  refine ⟨?_, ?_, ?_⟩
  · cases hx : execInner store query with
    | ok resp =>
      left
      exact ⟨resp, rfl, by simp [execute_dynamodb_query, hx]⟩
    | error e =>
      right
      refine ⟨e, rfl, ?_, ?_, ?_⟩ <;>
        · simp only [execute_dynamodb_query, hx]
          split <;> simp [lookupA]
  · intro opName hop hnot
    simp only [List.mem_cons, List.not_mem_nil, or_false, not_or] at hnot
    obtain ⟨h1, h2, h3, h4⟩ := hnot
    unfold execInner
    rw [hop]
    simp only [Option.getD_some]
    by_cases hc : (!truthyOpt (lookupA query "TableName")
        && !jvalEqStr (JValue.str opName) "BatchGetItem") = true
    · rw [if_pos hc]
      exact ⟨_, rfl⟩
    · rw [if_neg hc]
      simp only [allowListFor]
      have e1 : jvalEqStr (JValue.str opName) "Query" = false :=
        jvalEqStr_eq_false _ _ (by simp [h1])
      have e2 : jvalEqStr (JValue.str opName) "Scan" = false :=
        jvalEqStr_eq_false _ _ (by simp [h2])
      have e3 : jvalEqStr (JValue.str opName) "GetItem" = false :=
        jvalEqStr_eq_false _ _ (by simp [h3])
      have e4 : jvalEqStr (JValue.str opName) "BatchGetItem" = false :=
        jvalEqStr_eq_false _ _ (by simp [h4])
      simp only [e1, e2, e3, e4, Bool.false_eq_true, if_false]
      exact ⟨_, rfl⟩
  · intro htbl hop
    unfold execInner
    rw [htbl]
    have hb : jvalEqStr ((lookupA query "operation").getD (JValue.str "Query"))
        "BatchGetItem" = false := jvalEqStr_eq_false _ _ hop
    rw [if_pos]
    rw [hb]
    rfl

theorem c4_executor_failure_envelope_witness :
    (∃ e, execInner (fun _ _ => Except.ok [])
      [("operation", JValue.str "Frobnicate"), ("TableName", JValue.str "t")]
        = Except.error e) ∧
    execInner (fun _ _ => Except.ok []) [("operation", JValue.str "Query")]
      = Except.error "TableName is required in query" :=
  ⟨(c4_executor_failure_envelope ⟨false, false⟩ (fun _ _ => Except.ok [])
      [("operation", JValue.str "Frobnicate"), ("TableName", JValue.str "t")]).2.1
      "Frobnicate" (by rfl) (by decide),
   (c4_executor_failure_envelope ⟨false, false⟩ (fun _ _ => Except.ok [])
      [("operation", JValue.str "Query")]).2.2 (by rfl)
      (fun hq => absurd (JValue.str.inj hq) (by decide))⟩

/-- Claim C10: a BatchGetItem spec is dispatched to the store with only
its `RequestItems` field — every other field, including the allow-listed
`ReturnConsumedCapacity`, is discarded before dispatch — and a
BatchGetItem spec without `RequestItems` yields the failure envelope. -/
theorem c10_batch_dispatch (cfg : Config) (store : DynamoStore) (query : JObject)
    (hop : lookupA query "operation" = some (JValue.str "BatchGetItem")) :
    (∀ v, lookupA query "RequestItems" = some v →
      execInner store query = store "BatchGetItem" [("RequestItems", v)]) ∧
    (lookupA query "RequestItems" = none →
      execInner store query = Except.error "BatchGetItem requires RequestItems" ∧
      hasKeyA (execute_dynamodb_query cfg store query) "Error" = true ∧
      lookupA (execute_dynamodb_query cfg store query) "_generated_query"
        = some (JValue.obj query)) := by
  have hparams : lookupA (filterQueryParams (validParams "BatchGetItem") query)
      "RequestItems" = lookupA query "RequestItems" := by
    rw [lookupA_filterQueryParams]
    simp [validParams]
  have hinner : ∀ r, lookupA query "RequestItems" = r →
      execInner store query = (match r with
        | none => Except.error "BatchGetItem requires RequestItems"
        | some v => store "BatchGetItem" [("RequestItems", v)]) := by
    intro r hr
    unfold execInner
    rw [hop]
    simp only [Option.getD_some]
    rw [if_neg (by simp [jvalEqStr])]
    simp only [allowListFor]
    rw [if_neg (by simp [jvalEqStr]), if_neg (by simp [jvalEqStr]),
        if_neg (by simp [jvalEqStr]), if_pos (by simp [jvalEqStr])]
    rw [hparams, hr]
  constructor
  · intro v hv
    simpa using hinner (some v) hv
  · intro hnone
    have he := hinner none hnone
    simp only at he
    refine ⟨he, ?_, ?_⟩ <;>
      · simp only [execute_dynamodb_query, he]
        split <;> simp [lookupA, hasKeyA]

theorem c10_batch_dispatch_witness :
    execInner (fun op ps => Except.ok [("op", JValue.str op), ("sent", JValue.obj ps)])
      [("operation", JValue.str "BatchGetItem"), ("RequestItems", JValue.arr []),
       ("ReturnConsumedCapacity", JValue.str "TOTAL")]
      = Except.ok [("op", JValue.str "BatchGetItem"),
                   ("sent", JValue.obj [("RequestItems", JValue.arr [])])] ∧
    execInner (fun op ps => Except.ok [("op", JValue.str op), ("sent", JValue.obj ps)])
      [("operation", JValue.str "BatchGetItem")]
      = Except.error "BatchGetItem requires RequestItems" :=
  ⟨(c10_batch_dispatch ⟨false, false⟩
      (fun op ps => Except.ok [("op", JValue.str op), ("sent", JValue.obj ps)])
      [("operation", JValue.str "BatchGetItem"), ("RequestItems", JValue.arr []),
       ("ReturnConsumedCapacity", JValue.str "TOTAL")] (by rfl)).1
      (JValue.arr []) (by rfl),
   ((c10_batch_dispatch ⟨false, false⟩
      (fun op ps => Except.ok [("op", JValue.str op), ("sent", JValue.obj ps)])
      [("operation", JValue.str "BatchGetItem")] (by rfl)).2 (by rfl)).1⟩

/-- Claim C9: whenever the QUERY workflow hands a structured envelope back
to the caller after a successful lookup, that envelope's
`_generated_query` field equals the lookup spec that produced it. -/
theorem c9_generated_query_echo (cfg : Config) (oracle : Oracle)
    (store : DynamoStore) (cid : String) (convs : ConvMap) (genQ : JObject)
    (txt : Option JValue) (env : JObject)
    (hsucc : hasKeyA (execute_dynamodb_query cfg store genQ) "Error" = false)
    (hok : (runQueryPath cfg oracle store cid convs genQ).2
      = Except.ok (txt, some env)) :
    lookupA env "_generated_query" = some (JValue.obj genQ) := by
  unfold runQueryPath at hok
  simp only [hsucc, Bool.false_eq_true, if_false] at hok
  cases ha : cfg.llmAnalyzeResults with
  | false =>
    simp only [ha, Bool.false_eq_true, if_false] at hok
    simp only [Except.ok.injEq, Prod.mk.injEq, Option.some.injEq] at hok
    rw [← hok.2]
    exact lookupA_objInsert_self _ _ _
  | true =>
    simp only [ha, if_true] at hok
    cases ho : oracle (build_conversation_prompt (transcript (appendMsg convs cid
        { role := Role.system,
          content := "Query Results:\n"
            ++ jdump (JValue.obj (execute_dynamodb_query cfg store genQ)) }) cid)) with
    | error e => rw [ho] at hok; simp at hok
    | ok analysis =>
      rw [ho] at hok
      simp only [Except.ok.injEq, Prod.mk.injEq, Option.some.injEq] at hok
      rw [← hok.2]
      exact lookupA_objInsert_self _ _ _

theorem c9_generated_query_echo_witness :
    lookupA [("Count", JValue.num "3"),
             ("_generated_query", JValue.obj [("operation", JValue.str "Scan"),
                                              ("TableName", JValue.str "orders")])]
        "_generated_query"
      = some (JValue.obj [("operation", JValue.str "Scan"),
                          ("TableName", JValue.str "orders")]) :=
  c9_generated_query_echo ⟨false, false⟩ (fun _ => Except.error "down")
    (fun _ _ => Except.ok [("Count", JValue.num "3")]) "c" []
    [("operation", JValue.str "Scan"), ("TableName", JValue.str "orders")]
    (some (JValue.str "Query executed successfully. Found 3 results."))
    [("Count", JValue.num "3"),
     ("_generated_query", JValue.obj [("operation", JValue.str "Scan"),
                                      ("TableName", JValue.str "orders")])]
    (by rfl) (by rfl)

/-- Claim C8 (amended): for every parsed directive whose response_type is
not QUERY the orchestrator returns the directive's content as the final
answer — as-is in the NATURAL_LANGUAGE branch, JSON-serialized to text
(when not already a string) only in the unknown-type branch — performs no
lookup, leaves the session store untouched, and attaches no structured
data. -/
theorem c8_non_query_direct (cfg : Config) (oracle : Oracle) (store : DynamoStore)
    (cid : String) (convs : ConvMap) (respObj : JObject)
    (h : jvalEqStr ((lookupA respObj "response_type").getD
      (JValue.str "NATURAL_LANGUAGE")) "QUERY" = false) :
    dispatchDirective cfg oracle store cid convs respObj
      = (convs, Except.ok
          ((if jvalEqStr ((lookupA respObj "response_type").getD
              (JValue.str "NATURAL_LANGUAGE")) "NATURAL_LANGUAGE"
            then lookupA respObj "content"
            else some (JValue.str (match lookupA respObj "content" with
              | some (JValue.str s) => s
              | some v => jdump v
              | none => "null"))), none)) := by
  unfold dispatchDirective
  simp only [h, Bool.false_eq_true, if_false]
  split <;> rfl

theorem c8_non_query_direct_witness :
    dispatchDirective ⟨false, false⟩ (fun _ => Except.error "")
      (fun _ _ => Except.ok []) "c" []
      [("response_type", JValue.str "WEIRD"), ("content", JValue.str "ok")]
      = ([], Except.ok (some (JValue.str "ok"), none)) :=
  c8_non_query_direct ⟨false, false⟩ (fun _ => Except.error "")
    (fun _ _ => Except.ok []) "c" []
    [("response_type", JValue.str "WEIRD"), ("content", JValue.str "ok")] (by rfl)

/-- Claim C8 counterexample: a NATURAL_LANGUAGE directive whose content is
a structured value is returned as that structured value, not coerced to
text, so the claimed coercion does not happen on this path. -/
theorem c8_counterexample :
    (dispatchDirective ⟨false, false⟩ (fun _ => Except.error "")
      (fun _ _ => Except.ok []) "c" []
      [("response_type", JValue.str "NATURAL_LANGUAGE"),
       ("content", JValue.obj [("a", JValue.str "b")])]).2
      = Except.ok (some (JValue.obj [("a", JValue.str "b")]), none) := by
  rfl

theorem c7_extraction_order_witness :
    extract_json_from_response "```json \x7b\"content\": \"hi\"\x7d```"
      = parseObjOrNL "\x7b\"content\": \"hi\"\x7d" "```json \x7b\"content\": \"hi\"\x7d```" ∧
    extract_json_from_response "x \x7b\"content\": \"y\"\x7d z"
      = parseObjOrNL "\x7b\"content\": \"y\"\x7d" "x \x7b\"content\": \"y\"\x7d z" ∧
    extract_json_from_response "plain prose" = nlWrap "plain prose" :=
  ⟨(c7_extraction_order _).1 _ (by decide),
   (c7_extraction_order _).2.1 (by decide) _ (by decide),
   (c7_extraction_order _).2.2 (by decide) (by decide)⟩

theorem transcript_appendMsg_self (convs : ConvMap) (cid : String) (m : Msg) :
    transcript (appendMsg convs cid m) cid = transcript convs cid ++ [m] := by
  unfold appendMsg transcript
  rw [lookupA_objInsert_self]
  rfl

theorem lookupA_appendMsg_self (convs : ConvMap) (cid : String) (m : Msg) :
    (lookupA (appendMsg convs cid m) cid).isSome = true := by
  unfold appendMsg
  rw [lookupA_objInsert_self]
  rfl

theorem transcript_ensure (convs : ConvMap) (cid : String) :
    transcript (if (lookupA convs cid).isNone = true
      then objInsert convs cid [] else convs) cid = transcript convs cid := by
  rcases hl : lookupA convs cid with _ | v
  · simp [hl, transcript, lookupA_objInsert_self]
  · simp [hl, transcript]

theorem countRole_append (r : Role) (l1 l2 : List Msg) :
    countRole r (l1 ++ l2) = countRole r l1 + countRole r l2 := by
  simp [countRole, List.countP_append]

theorem runQueryPath_state (cfg : Config) (oracle : Oracle) (store : DynamoStore)
    (cid : String) (convs : ConvMap) (genQ : JObject) :
    (runQueryPath cfg oracle store cid convs genQ).1 = convs ∨
    ∃ m, m.role = Role.system ∧
      (runQueryPath cfg oracle store cid convs genQ).1 = appendMsg convs cid m := by
  unfold runQueryPath
  by_cases h1 : hasKeyA (execute_dynamodb_query cfg store genQ) "Error" = true
  · left
    simp [h1]
  · by_cases h2 : cfg.llmAnalyzeResults = true
    · right
      refine ⟨{ role := Role.system,
                content := "Query Results:\n"
                  ++ jdump (JValue.obj (execute_dynamodb_query cfg store genQ)) },
        rfl, ?_⟩
      simp only [h1, h2, Bool.false_eq_true, if_false, if_true]
      cases oracle (build_conversation_prompt (transcript (appendMsg convs cid
          { role := Role.system,
            content := "Query Results:\n"
              ++ jdump (JValue.obj (execute_dynamodb_query cfg store genQ)) }) cid)) <;>
        simp
    · left
      simp [h1, h2]

theorem dispatchDirective_state (cfg : Config) (oracle : Oracle) (store : DynamoStore)
    (cid : String) (convs : ConvMap) (respObj : JObject) :
    (dispatchDirective cfg oracle store cid convs respObj).1 = convs ∨
    ∃ m, m.role = Role.system ∧
      (dispatchDirective cfg oracle store cid convs respObj).1
        = appendMsg convs cid m := by
  unfold dispatchDirective
  by_cases hq : jvalEqStr ((lookupA respObj "response_type").getD
      (JValue.str "NATURAL_LANGUAGE")) "QUERY" = true
  · simp only [hq, if_true]
    rcases lookupA respObj "content" with _ | v
    · left; simp
    · cases v with
      | str s =>
        rcases hj : jloads s with _ | w
        · left; simp [hj]
        · cases w with
          | obj kvs =>
            simpa [hj] using runQueryPath_state cfg oracle store cid convs kvs
          | null => left; simp [hj]
          | bool b => left; simp [hj]
          | num n => left; simp [hj]
          | str t => left; simp [hj]
          | arr xs => left; simp [hj]
      | obj kvs => simpa using runQueryPath_state cfg oracle store cid convs kvs
      | null => left; simp
      | bool b => left; simp
      | num n => left; simp
      | arr xs => left; simp
  · by_cases hn : jvalEqStr ((lookupA respObj "response_type").getD
        (JValue.str "NATURAL_LANGUAGE")) "NATURAL_LANGUAGE" = true
    · left; simp [hq, hn]
    · left; simp [hq, hn]

theorem process_state (cfg : Config) (oracle : Oracle) (store : DynamoStore)
    (cid : String) (convs : ConvMap) :
    (process_with_history cfg oracle store cid convs).1 = convs ∨
    ∃ m, m.role = Role.system ∧
      (process_with_history cfg oracle store cid convs).1 = appendMsg convs cid m := by
  unfold process_with_history
  cases ho : oracle (build_conversation_prompt (transcript convs cid)) with
  | error e => left; simp [ho]
  | ok llm =>
    simpa [ho] using dispatchDirective_state cfg oracle store cid convs
      (extract_json_from_response llm)

theorem chatErrorPath_state (e cid : String) (userMsg : Option Msg)
    (freshId2 : String) (convs : ConvMap) (hcid : cid ≠ "")
    (hpres : (lookupA convs cid).isSome = true) :
    (chatErrorPath e cid userMsg freshId2 convs).2
      = appendMsg convs cid { role := Role.assistant, content := errorText e } := by
  unfold chatErrorPath
  have hni : ¬((lookupA convs cid).isNone = true) := by
    rcases hl : lookupA convs cid with _ | v
    · rw [hl] at hpres
      simp at hpres
    · simp
  simp [hni, hcid]

theorem counts_assemble (convs : ConvMap) (cid : String) (convs2 convs3 : ConvMap)
    (userMsg aMsg : Msg)
    (hu : userMsg.role = Role.user) (ha : aMsg.role = Role.assistant)
    (hT2 : transcript convs2 cid = transcript convs cid ++ [userMsg])
    (hshape : convs3 = convs2 ∨
      ∃ m, m.role = Role.system ∧ convs3 = appendMsg convs2 cid m) :
    countRole Role.user (transcript (appendMsg convs3 cid aMsg) cid)
      = countRole Role.user (transcript convs cid) + 1 ∧
    countRole Role.assistant (transcript (appendMsg convs3 cid aMsg) cid)
      = countRole Role.assistant (transcript convs cid) + 1 := by
  rw [transcript_appendMsg_self]
  rcases hshape with h3 | ⟨mm, hmr, h3⟩
  · subst h3
    rw [hT2]
    constructor <;>
      simp [countRole_append, countRole, List.countP_cons, hu, ha]
  · subst h3
    rw [transcript_appendMsg_self, hT2]
    constructor <;>
      simp [countRole_append, countRole, List.countP_cons, hu, ha, hmr]

/-- Claim C3: every call to the chat endpoint — on the direct-answer
path, the lookup-failure path, the non-string-response path, and the
full-failure (exception) path alike — appends exactly one user message
and exactly one assistant message to the session transcript of the
conversation id it used (the freshly generated ids are real UUIDs, hence
nonempty). -/
theorem c3_turn_symmetry (cfg : Config) (oracle : Oracle) (store : DynamoStore)
    (reqConvId : Option String) (reqMsg : String) (freshId freshId2 : String)
    (convs : ConvMap) (hf : freshId ≠ "") :
    countRole Role.user
        (transcript (chat cfg oracle store reqConvId reqMsg freshId freshId2 convs).2
          (chatConversationId reqConvId freshId))
      = countRole Role.user
          (transcript convs (chatConversationId reqConvId freshId)) + 1 ∧
    countRole Role.assistant
        (transcript (chat cfg oracle store reqConvId reqMsg freshId freshId2 convs).2
          (chatConversationId reqConvId freshId))
      = countRole Role.assistant
          (transcript convs (chatConversationId reqConvId freshId)) + 1 := by
  have hcid : chatConversationId reqConvId freshId ≠ "" := by
    unfold chatConversationId
    rcases reqConvId with _ | s
    · exact hf
    · by_cases hs : s = ""
      · simpa [hs] using hf
      · simp [hs]
  simp only [chat, chatTurn]
  generalize chatConversationId reqConvId freshId = cid at hcid ⊢
  generalize hc2 : appendMsg (if (lookupA convs cid).isNone = true
      then objInsert convs cid [] else convs) cid
      { role := Role.user, content := reqMsg } = convs2
  have hT2 : transcript convs2 cid
      = transcript convs cid ++ [{ role := Role.user, content := reqMsg }] := by
    rw [← hc2, transcript_appendMsg_self, transcript_ensure]
  have hpres2 : (lookupA convs2 cid).isSome = true := by
    rw [← hc2]
    exact lookupA_appendMsg_self _ _ _
  have hshape0 := process_state cfg oracle store cid convs2
  rcases hp : process_with_history cfg oracle store cid convs2 with ⟨convs3, res⟩
  rw [hp] at hshape0
  simp only at hshape0
  have hpres3 : (lookupA convs3 cid).isSome = true := by
    rcases hshape0 with h3 | ⟨mm, hmr, h3⟩
    · rw [h3]; exact hpres2
    · rw [h3]; exact lookupA_appendMsg_self _ _ _
  cases res with
  | ok pr =>
    obtain ⟨fOpt, qd⟩ := pr
    rcases fOpt with _ | v
    · dsimp only
      rw [chatErrorPath_state _ _ _ _ _ hcid hpres3]
      exact counts_assemble convs cid convs2 convs3 _ _ rfl rfl hT2 hshape0
    · cases v with
      | str s =>
        dsimp only
        exact counts_assemble convs cid convs2 convs3 _ _ rfl rfl hT2 hshape0
      | null =>
        dsimp only
        rw [chatErrorPath_state _ _ _ _ _ hcid hpres3]
        exact counts_assemble convs cid convs2 convs3 _ _ rfl rfl hT2 hshape0
      | bool b =>
        dsimp only
        rw [chatErrorPath_state _ _ _ _ _ hcid hpres3]
        exact counts_assemble convs cid convs2 convs3 _ _ rfl rfl hT2 hshape0
      | num n =>
        dsimp only
        rw [chatErrorPath_state _ _ _ _ _ hcid hpres3]
        exact counts_assemble convs cid convs2 convs3 _ _ rfl rfl hT2 hshape0
      | arr xs =>
        dsimp only
        rw [chatErrorPath_state _ _ _ _ _ hcid hpres3]
        exact counts_assemble convs cid convs2 convs3 _ _ rfl rfl hT2 hshape0
      | obj kvs =>
        dsimp only
        rw [chatErrorPath_state _ _ _ _ _ hcid hpres3]
        exact counts_assemble convs cid convs2 convs3 _ _ rfl rfl hT2 hshape0
  | error e =>
    dsimp only
    rw [chatErrorPath_state _ _ _ _ _ hcid hpres3]
    exact counts_assemble convs cid convs2 convs3 _ _ rfl rfl hT2 hshape0

theorem c3_turn_symmetry_witness :
    countRole Role.user
        (transcript (chat ⟨false, false⟩ (fun _ => Except.error "boom")
          (fun _ _ => Except.ok []) none "hi" "c1" "c2" []).2
          (chatConversationId none "c1"))
      = countRole Role.user (transcript [] (chatConversationId none "c1")) + 1 ∧
    countRole Role.assistant
        (transcript (chat ⟨false, false⟩ (fun _ => Except.error "boom")
          (fun _ _ => Except.ok []) none "hi" "c1" "c2" []).2
          (chatConversationId none "c1"))
      = countRole Role.assistant (transcript [] (chatConversationId none "c1")) + 1 :=
  c3_turn_symmetry ⟨false, false⟩ (fun _ => Except.error "boom")
    (fun _ _ => Except.ok []) none "hi" "c1" "c2" [] (by decide)

end DmsChat
